import Mathlib

set_option maxHeartbeats 1000000

/-! Shallow embedding of the bathhouse allocation engine in `src/main.py`:
the room / occupancy-request data model, the seeded inventory from `init_db`,
and the three mutating endpoints `api_quick_assign`, `api_checkout` and
`api_rooms_eta`.  SQLite transactions that abort are modelled by `Except`
results carrying no state (rollback leaves the store untouched); timestamps
are minutes since an epoch (`Int`). -/

inductive RoomStatus where
  | available | occupied | cleaning | disabled
  deriving DecidableEq, Repr

/-- Room kind: `'private' | 'hall'` (`private` is a Lean keyword, hence `priv`). -/
inductive RoomKind where
  | priv | hall
  deriving DecidableEq, Repr

inductive ReqStatus where
  | in_room | completed | canceled
  deriving DecidableEq, Repr

/-- The `targetArea` values accepted by `api_quick_assign`. -/
inductive Area where
  | priv | reino_hall | kami_hall
  deriving DecidableEq, Repr

/-- Error taxonomy of the endpoints.  Each constructor corresponds to one
`raise HTTPException(...)` site of `src/main.py`; `internal` stands both for
the `except Exception` 500 branches and for exceptions (e.g. `ValueError`
from `int(...)`) that escape the handler entirely. -/
inductive Err where
  | badParameters | missingRoom | roomNotFound | wrongRoomKind | roomNotAvailable
  | hallDisabled | invalidGroupSize | groupTooLarge | capacityExceeded
  | requestNotFound | roomNotOccupied | internal
  deriving DecidableEq, Repr

/-- A row of the `rooms` table. -/
structure Room where
  id : Nat
  name : String
  capacity : Nat
  status : RoomStatus
  eta_at : Option Int
  kind : RoomKind
  deriving DecidableEq, Repr

/-- A row of the `requests` table. -/
structure Request where
  id : Nat
  headcount : Int
  status : ReqStatus
  assigned_room_id : Option Nat
  day_key : String
  seq : Nat
  target_area : Area
  allocated_seats : Option Nat
  deriving DecidableEq, Repr

/-- The persistent store: both tables plus the AUTOINCREMENT counter for
`requests.id`. -/
structure St where
  rooms : List Room
  requests : List Request
  nextReqId : Nat
  deriving DecidableEq, Repr

/-- Models `seats_needed_for_group` (main.py line 135): seat units consumed by a
hall group of the given headcount. -/
def seats_needed_for_group (headcount : Int) : Except Err Nat :=
  if headcount ≤ 0 then .error .invalidGroupSize
  else if headcount ≤ 2 then .ok 2
  else if headcount ≤ 4 then .ok 4
  else .error .groupTooLarge

/-- Models `SELECT COALESCE(SUM(allocated_seats),0) FROM requests WHERE
assigned_room_id=? AND status='in_room'` on a request list. -/
def seatsUsedL (l : List Request) (rid : Nat) : Nat :=
  ((l.filter fun q => q.assigned_room_id == some rid && q.status == ReqStatus.in_room).map
    fun q => q.allocated_seats.getD 0).sum

/-- Models `hall_seats_used` (main.py line 141). -/
def hall_seats_used (st : St) (rid : Nat) : Nat := seatsUsedL st.requests rid

/-- Number of `in_room` requests referencing a given room. -/
def inRoomCountL (l : List Request) (rid : Nat) : Nat :=
  l.countP fun q => q.assigned_room_id == some rid && q.status == ReqStatus.in_room

def inRoomCount (st : St) (rid : Nat) : Nat := inRoomCountL st.requests rid

/-- Sequence numbers already issued for a given day. -/
def daySeqs (l : List Request) (dk : String) : List Nat :=
  (l.filter fun q => q.day_key == dk).map Request.seq

/-- Models `SELECT COALESCE(MAX(seq),0) FROM requests WHERE day_key=?`. -/
def dayMax (st : St) (dk : String) : Nat := (daySeqs st.requests dk).foldr max 0

/-- The day-scoped sequence number issued next (main.py line 408). -/
def nextSeq (st : St) (dk : String) : Nat := dayMax st dk + 1

/-- Models `SELECT ... FROM rooms WHERE id=?` (first matching row). -/
def findRoomById (st : St) (rid : Int) : Option Room :=
  st.rooms.find? fun r => (r.id : Int) == rid

/-- Models `SELECT ... FROM rooms WHERE name=?` (first matching row). -/
def findRoomByName (st : St) (name : String) : Option Room :=
  st.rooms.find? fun r => r.name == name

def reinoName : String := "霊の湯2階座敷"

def kamiName : String := "神の湯2階座敷"

/-- Models `UPDATE rooms SET status='occupied', eta_at=? WHERE id=?` (main.py 426). -/
def privUpd (now : Int) (rid : Nat) (x : Room) : Room :=
  if x.id == rid then { x with status := .occupied, eta_at := some (now + 105) } else x

/-- The request row inserted by a private-room check-in (main.py 420-423). -/
def privReq (st : St) (dayKey : String) (seq : Nat) (headcount : Int) (rid : Nat) : Request :=
  { id := st.nextReqId, headcount := headcount, status := .in_room,
    assigned_room_id := some rid, day_key := dayKey, seq := seq,
    target_area := .priv, allocated_seats := none }

/-- State after a successful private-room check-in: one request row inserted
and the room marked occupied with eta now + 105 minutes. -/
def stAfterPriv (st : St) (now : Int) (dayKey : String) (seq : Nat) (headcount : Int)
    (rid : Nat) : St :=
  { rooms := st.rooms.map (privUpd now rid),
    requests := st.requests ++ [privReq st dayKey seq headcount rid],
    nextReqId := st.nextReqId + 1 }

/-- The `target == "private"` branch of `api_quick_assign` (main.py 411-426).
The caller has already applied Python falsiness to `roomId` (`none` here means
absent or falsy) and coerced it with `int(...)`. -/
def privAssign (st : St) (now : Int) (dayKey : String) (seq : Nat) (headcount : Int)
    (roomId : Option Int) : Except Err (St × Nat) :=
  match roomId with
  | none => .error .missingRoom
  | some rid =>
    match findRoomById st rid with
    | none => .error .roomNotFound
    | some r =>
      if r.kind ≠ .priv then .error .wrongRoomKind
      else if r.status ≠ .available then .error .roomNotAvailable
      else .ok (stAfterPriv st now dayKey seq headcount r.id, seq)

/-- The request row inserted by a hall check-in (main.py 440-443). -/
def hallReq (st : St) (dayKey : String) (seq : Nat) (target : Area) (headcount : Int)
    (rid : Nat) (need : Nat) : Request :=
  { id := st.nextReqId, headcount := headcount, status := .in_room,
    assigned_room_id := some rid, day_key := dayKey, seq := seq,
    target_area := target, allocated_seats := some need }

/-- State after a successful hall check-in: one request row inserted with
`allocated_seats = need`; rooms untouched. -/
def stAfterHall (st : St) (dayKey : String) (seq : Nat) (target : Area) (headcount : Int)
    (rid : Nat) (need : Nat) : St :=
  { st with
    requests := st.requests ++ [hallReq st dayKey seq target headcount rid need],
    nextReqId := st.nextReqId + 1 }

/-- The hall branch of `api_quick_assign` (main.py 428-443). -/
def hallAssign (st : St) (dayKey : String) (seq : Nat) (target : Area) (hallName : String)
    (headcount : Int) : Except Err (St × Nat) :=
  match findRoomByName st hallName with
  | none => .error .roomNotFound
  | some r =>
    if r.status = .disabled then .error .hallDisabled
    else
      match seats_needed_for_group headcount with
      | .error e => .error e
      | .ok need =>
        if r.capacity < hall_seats_used st r.id + need then .error .capacityExceeded
        else .ok (stAfterHall st dayKey seq target headcount r.id need, seq)

/-- The transaction body of `api_quick_assign` (main.py 401-445) on typed
inputs: headcount positivity check, day-scoped sequence number, then the
private or hall branch. -/
def quickAssignCore (st : St) (now : Int) (dayKey : String) (target : Area) (headcount : Int)
    (roomId : Option Int) : Except Err (St × Nat) :=
  if headcount ≤ 0 then .error .invalidGroupSize
  else
    let seq := nextSeq st dayKey
    match target with
    | .priv => privAssign st now dayKey seq headcount roomId
    | .reino_hall => hallAssign st dayKey seq .reino_hall reinoName headcount
    | .kami_hall => hallAssign st dayKey seq .kami_hall kamiName headcount

/-- Models `UPDATE requests SET status='completed', allocated_seats=NULL WHERE id=?`. -/
def coUpd (reqId : Int) (x : Request) : Request :=
  if (x.id : Int) == reqId then { x with status := .completed, allocated_seats := none } else x

/-- Models `UPDATE rooms SET status='available', eta_at=NULL WHERE id=?`. -/
def roomFree (rid : Nat) (x : Room) : Room :=
  if x.id == rid then { x with status := .available, eta_at := none } else x

/-- The transaction body of `api_checkout` (main.py 460-473): look up the
active request joined with its room; complete the request; if the room kind
is private, free the room. -/
def checkoutCore (st : St) (reqId : Int) : Except Err St :=
  match st.requests.find? (fun q => (q.id : Int) == reqId && q.status == ReqStatus.in_room) with
  | none => .error .requestNotFound
  | some q =>
    match q.assigned_room_id with
    | none => .error .requestNotFound
    | some rid =>
      match st.rooms.find? (fun r => r.id == rid) with
      | none => .error .requestNotFound
      | some r =>
        .ok { st with
          requests := st.requests.map (coUpd reqId),
          rooms := if r.kind == RoomKind.priv then st.rooms.map (roomFree rid) else st.rooms }

/-- Models `UPDATE rooms SET eta_at=? WHERE id=? AND status='occupied'`. -/
def etaUpd (eta : Int) (roomId : Int) (x : Room) : Room :=
  if (x.id : Int) == roomId && x.status == RoomStatus.occupied
  then { x with eta_at := some eta } else x

/-- The transaction body of `api_rooms_eta` (main.py 496-503): kind check,
then the guarded update whose rowcount must be exactly 1. -/
def roomsEtaCore (st : St) (eta : Int) (roomId : Int) : Except Err St :=
  match findRoomById st roomId with
  | none => .error .roomNotFound
  | some r =>
    if r.kind ≠ .priv then .error .wrongRoomKind
    else if (st.rooms.filter fun x =>
        (x.id : Int) == roomId && x.status == RoomStatus.occupied).length ≠ 1
      then .error .roomNotOccupied
    else .ok { st with rooms := st.rooms.map (etaUpd eta roomId) }

/-- The inventory seeded by `init_db` (main.py 112-119): eight private rooms
and the two halls, ids in AUTOINCREMENT order. -/
def initRooms : List Room :=
  [ { id := 1, name := "１号室", capacity := 4, status := .available, eta_at := none, kind := .priv },
    { id := 2, name := "２号室", capacity := 4, status := .available, eta_at := none, kind := .priv },
    { id := 3, name := "３号室", capacity := 4, status := .available, eta_at := none, kind := .priv },
    { id := 4, name := "５号室", capacity := 2, status := .available, eta_at := none, kind := .priv },
    { id := 5, name := "６号室", capacity := 4, status := .available, eta_at := none, kind := .priv },
    { id := 6, name := "７号室", capacity := 6, status := .available, eta_at := none, kind := .priv },
    { id := 7, name := "８号室", capacity := 4, status := .available, eta_at := none, kind := .priv },
    { id := 8, name := "１０号室", capacity := 4, status := .available, eta_at := none, kind := .priv },
    { id := 9, name := reinoName, capacity := 20, status := .available, eta_at := none, kind := .hall },
    { id := 10, name := kamiName, capacity := 70, status := .available, eta_at := none, kind := .hall } ]

/-- The seeded initial store. -/
def initState : St := { rooms := initRooms, requests := [], nextReqId := 1 }

/-- JSON values as they reach the endpoint handlers (subset relevant here). -/
inductive PyVal where
  | int (n : Int) | str (s : String) | null
  deriving DecidableEq, Repr

/-- Python truthiness of a payload value. -/
def pyTruthy : PyVal → Bool
  | .int n => n != 0
  | .str s => s != ""
  | .null => false

def digitVal (c : Char) : Nat := c.toNat - 48

/-- ASCII whitespace stripped by Python `int(str)`. -/
def isPySpace (c : Char) : Bool :=
  c == ' ' || c == '\t' || c == '\n' || c == '\r'

/-- Remaining digits of a base-10 literal: digits possibly grouped by single
underscores that sit between two digits, as Python `int` accepts (`1_0`). -/
def digitsCore (acc : Nat) : List Char → Option Nat
  | [] => some acc
  | '_' :: c :: rest =>
    if c.isDigit then digitsCore (acc * 10 + digitVal c) rest else none
  | c :: rest =>
    if c.isDigit then digitsCore (acc * 10 + digitVal c) rest else none

/-- A base-10 digit sequence (underscore grouping allowed after the first
digit). -/
def digitsToNat : List Char → Option Nat
  | [] => none
  | c :: rest => if c.isDigit then digitsCore (digitVal c) rest else none

/-- Models Python `int(...)` on a string: surrounding ASCII whitespace is
stripped, an optional sign precedes ASCII digits with optional underscore
grouping; anything else raises `ValueError`, i.e. `none`.  (Unicode digits
and exotic whitespace, which CPython also accepts, are not modelled; no
theorem relies on such an input failing.) -/
def pyIntOfChars (cs : List Char) : Option Int :=
  let cs2 := ((cs.dropWhile isPySpace).reverse.dropWhile isPySpace).reverse
  match cs2 with
  | '-' :: rest => (digitsToNat rest).map fun n => -(n : Int)
  | '+' :: rest => (digitsToNat rest).map fun n => (n : Int)
  | _ => (digitsToNat cs2).map fun n => (n : Int)

def pyIntOfString (s : String) : Option Int := pyIntOfChars s.toList

/-- Python `int(v)` on a payload value: ints pass through, strings are
parsed, `None` raises `TypeError` (`none`). -/
def pyToInt : PyVal → Option Int
  | .int n => some n
  | .str s => pyIntOfString s
  | .null => none

/-- Models `if target not in ("private","reino_hall","kami_hall")` (main.py 399). -/
def parseArea : PyVal → Option Area
  | .str "private" => some .priv
  | .str "reino_hall" => some .reino_hall
  | .str "kami_hall" => some .kami_hall
  | _ => none

/-- The JSON payload of `POST /api/quick_assign`; `none` fields are absent keys. -/
structure QuickPayload where
  targetArea : Option PyVal
  headcount : Option PyVal
  roomId : Option PyVal
  deriving DecidableEq, Repr

/-- Models `api_quick_assign` (main.py 393-451) including the payload parsing that
precedes the transaction.  `int(payload.get("headcount", 1))` runs outside
any handler, so an unparsable headcount surfaces as the generic internal
error; an unparsable `roomId` is caught by `except Exception` and also maps
to the 500 internal error.  Returns the post-call store and the outcome. -/
def api_quick_assign (st : St) (now : Int) (dayKey : String) (p : QuickPayload) :
    St × Except Err Nat :=
  match pyToInt (p.headcount.getD (.int 1)) with
  | none => (st, .error .internal)
  | some hc =>
    match parseArea (p.targetArea.getD (.str "private")) with
    | none => (st, .error .badParameters)
    | some target =>
      if hc ≤ 0 then (st, .error .invalidGroupSize)
      else
        let go : Option Int → St × Except Err Nat := fun rid =>
          match quickAssignCore st now dayKey target hc rid with
          | .ok (st2, s) => (st2, .ok s)
          | .error e => (st, .error e)
        match target with
        | .priv =>
          let rv := p.roomId.getD .null
          if pyTruthy rv then
            match pyToInt rv with
            | none => (st, .error .internal)
            | some rid => go (some rid)
          else go none
        | _ => go none

/-- Models `api_checkout` (main.py 454-479): `int(payload.get("requestId", 0))`
runs outside the handler (unparsable value → internal error); a zero /
missing id is rejected as bad params; then the transaction body. -/
def api_checkout (st : St) (requestId : Option PyVal) : St × Except Err Unit :=
  match pyToInt (requestId.getD (.int 0)) with
  | none => (st, .error .internal)
  | some rid =>
    if rid == 0 then (st, .error .badParameters)
    else
      match checkoutCore st rid with
      | .ok st2 => (st2, .ok ())
      | .error e => (st, .error e)

/-- Models `datetime.replace(hour=h, minute=m)` result as minutes, on today. -/
def replaceTime (now h m : Int) : Int := (now / 1440) * 1440 + h * 60 + m

/-- Models `api_rooms_eta` (main.py 482-509): roomId coercion runs outside the
handler; the `HH:MM` length and digit checks raise 400; an out-of-range
hour/minute makes `datetime.replace` raise an uncaught `ValueError`
(internal error); then the transaction body. -/
def api_rooms_eta (st : St) (now : Int) (roomIdVal : Option PyVal) (hhmm : String) :
    St × Except Err Unit :=
  match pyToInt (roomIdVal.getD (.int 0)) with
  | none => (st, .error .internal)
  | some rid =>
    if rid == 0 || hhmm == "" || hhmm.length != 5 then (st, .error .badParameters)
    else
      match pyIntOfChars (hhmm.toList.take 2), pyIntOfChars ((hhmm.toList.drop 3).take 2) with
      | some h, some m =>
        if h < 0 || 23 < h || m < 0 || 59 < m then (st, .error .internal)
        else
          match roomsEtaCore st (replaceTime now h m) rid with
          | .ok st2 => (st2, .ok ())
          | .error e => (st, .error e)
      | _, _ => (st, .error .badParameters)

/-- One mutating operation against the store, on typed (post-parsing)
arguments; every state an endpoint call can produce is produced by one of
these (failed calls leave the store unchanged). -/
inductive Op where
  | checkin (now : Int) (dayKey : String) (target : Area) (headcount : Int) (roomId : Option Int)
  | checkout (reqId : Int)
  | setEta (eta : Int) (roomId : Int)

/-- Models `con.commit()` on success, `con.rollback()` on failure. -/
def commit (st : St) : Except Err St → St
  | .ok st2 => st2
  | .error _ => st

/-- Commit for the check-in transaction, which also returns a number. -/
def commitQ (st : St) : Except Err (St × Nat) → St
  | .ok out => out.1
  | .error _ => st

/-- Effect of an operation on the store: the committed state on success,
the unchanged state on rollback. -/
def applyOp (st : St) : Op → St
  | .checkin now dayKey target headcount roomId =>
    commitQ st (quickAssignCore st now dayKey target headcount roomId)
  | .checkout reqId => commit st (checkoutCore st reqId)
  | .setEta eta roomId => commit st (roomsEtaCore st eta roomId)

/-- States reachable from the seeded store by finite sequences of CheckIn,
CheckOut and SetPrivateRoomEta calls. -/
inductive Reachable : St → Prop where
  | init : Reachable initState
  | step {st : St} (op : Op) : Reachable st → Reachable (applyOp st op)

/-- Sequence number (if any) returned for day `dk` by one operation. -/
def issuedStep (dk : String) (st : St) : Op → List Nat
  | .checkin now dayKey target headcount roomId =>
    match quickAssignCore st now dayKey target headcount roomId with
    | .ok (_, s) => if dayKey == dk then [s] else []
    | .error _ => []
  | _ => []

/-- Sequence numbers returned by the successful check-ins for day `dk`
along a run of operations. -/
def issued (dk : String) : St → List Op → List Nat
  | _, [] => []
  | st, op :: ops => issuedStep dk st op ++ issued dk (applyOp st op) ops

/-- The columns of a room row that no endpoint ever writes. -/
def staticOf (r : Room) : Nat × String × Nat × RoomKind := (r.id, r.name, r.capacity, r.kind)

/-- The static columns still are exactly the seeded inventory. -/
def staticsOk (st : St) : Prop := st.rooms.map staticOf = initRooms.map staticOf

/-- State after a successful checkout of request `reqId` assigned to room
`rid`: the matching request rows completed, the room freed when private. -/
def stAfterCheckout (st : St) (reqId : Int) (rid : Nat) (isPriv : Bool) : St :=
  { st with
    requests := st.requests.map (coUpd reqId),
    rooms := if isPriv then st.rooms.map (roomFree rid) else st.rooms }

/-- Invariant carried through every reachable state: the static room columns
are the seeded ones, request ids are fresh and distinct, hall usage stays
within capacity, and each private room agrees with its in-room count. -/
structure StInv (st : St) : Prop where
  statics : staticsOk st
  reqNodup : (st.requests.map Request.id).Nodup
  reqLt : ∀ q ∈ st.requests, q.id < st.nextReqId
  cap : ∀ r ∈ st.rooms, r.kind = .hall → seatsUsedL st.requests r.id ≤ r.capacity
  priv1 : ∀ r ∈ st.rooms, r.kind = .priv →
    inRoomCountL st.requests r.id ≤ 1 ∧
      (r.status = .occupied ↔ inRoomCountL st.requests r.id = 1) ∧
      (r.status = .available ↔ inRoomCountL st.requests r.id = 0)

/-- Models `hall_name = "霊の湯2階座敷" if target=="reino_hall" else "神の湯2階座敷"`
(main.py 429). -/
def hallNameOf (target : Area) : String :=
  if target = .reino_hall then reinoName else kamiName

/-- The first seeded private room (capacity 4). -/
def room1 : Room :=
  { id := 1, name := "１号室", capacity := 4, status := .available, eta_at := none, kind := .priv }

/-- The seeded small hall (capacity 20). -/
def reinoRoom : Room :=
  { id := 9, name := reinoName, capacity := 20, status := .available, eta_at := none, kind := .hall }

/-- A sample run: two same-day check-ins, one rejected check-in (group too
large for a hall), one more check-in. -/
def demoOps : List Op :=
  [Op.checkin 0 "d" Area.priv 2 (some 1), Op.checkin 0 "d" Area.reino_hall 2 none,
    Op.checkin 0 "d" Area.reino_hall 9 none, Op.checkin 0 "d" Area.kami_hall 4 none]

/-- Store after checking a group of 3 into private room 1. -/
def demoPrivSt : St := stAfterPriv initState 0 "d" 1 3 1

/-- Store after checking that group out again. -/
def demoCoSt : St := stAfterCheckout demoPrivSt 1 1 true

/-- A check-in payload whose headcount is not an integer. -/
def badHeadcountPayload : QuickPayload :=
  { targetArea := some (.str "private"), headcount := some (.str "two"), roomId := none }

/-- A check-in payload with an unknown target area. -/
def badTargetPayload : QuickPayload :=
  { targetArea := some (.str "zzz"), headcount := some (.int 1), roomId := none }

/-- A private check-in payload with headcount 0. -/
def zeroHeadcountPayload : QuickPayload :=
  { targetArea := some (.str "private"), headcount := some (.int 0), roomId := some (.int 1) }

/-! ### Basic list lemmas about the accounting functions -/

theorem intNatBeq (a b : Nat) : ((a : Int) == (b : Int)) = (a == b) := by
  simp [beq_iff_eq]

theorem seatsUsedL_nil (rid : Nat) : seatsUsedL [] rid = 0 := rfl

theorem seatsUsedL_cons (x : Request) (l : List Request) (rid : Nat) :
    seatsUsedL (x :: l) rid =
      (if x.assigned_room_id == some rid && x.status == ReqStatus.in_room
        then x.allocated_seats.getD 0 else 0) + seatsUsedL l rid := by
  by_cases h : (x.assigned_room_id == some rid && x.status == ReqStatus.in_room) = true
  · simp [seatsUsedL, List.filter_cons, h]
  · simp [seatsUsedL, List.filter_cons, h]

theorem seatsUsedL_append (l : List Request) (q : Request) (rid : Nat) :
    seatsUsedL (l ++ [q]) rid =
      seatsUsedL l rid +
        (if q.assigned_room_id == some rid && q.status == ReqStatus.in_room
          then q.allocated_seats.getD 0 else 0) := by
  induction l with
  | nil => simp [seatsUsedL_cons, seatsUsedL_nil]
  | cons x l ih => simp [seatsUsedL_cons, ih, Nat.add_assoc]

theorem inRoomCountL_nil (rid : Nat) : inRoomCountL [] rid = 0 := rfl

theorem inRoomCountL_append (l : List Request) (q : Request) (rid : Nat) :
    inRoomCountL (l ++ [q]) rid =
      inRoomCountL l rid +
        (if q.assigned_room_id == some rid && q.status == ReqStatus.in_room then 1 else 0) := by
  by_cases h : (q.assigned_room_id == some rid && q.status == ReqStatus.in_room) = true
  · simp [inRoomCountL, List.countP_append, List.countP_cons, h]
  · simp [inRoomCountL, List.countP_append, List.countP_cons, h]

theorem daySeqs_append (l : List Request) (q : Request) (dk : String) :
    daySeqs (l ++ [q]) dk = daySeqs l dk ++ (if q.day_key == dk then [q.seq] else []) := by
  by_cases h : (q.day_key == dk) = true
  · simp [daySeqs, List.filter_append, List.filter_cons, h]
  · simp [daySeqs, List.filter_append, List.filter_cons, h]

theorem foldr_max_append (xs : List Nat) (a : Nat) :
    (xs ++ [a]).foldr max 0 = max (xs.foldr max 0) a := by
  induction xs with
  | nil => simp
  | cons x xs ih => simp [ih, Nat.max_assoc]

/-- The update `coUpd` leaves ids untouched. -/
theorem coUpd_id (reqId : Int) (x : Request) : (coUpd reqId x).id = x.id := by
  unfold coUpd; split <;> rfl

theorem coUpd_day_key (reqId : Int) (x : Request) : (coUpd reqId x).day_key = x.day_key := by
  unfold coUpd; split <;> rfl

theorem coUpd_seq (reqId : Int) (x : Request) : (coUpd reqId x).seq = x.seq := by
  unfold coUpd; split <;> rfl

/-- The update `coUpd` either leaves the row alone or completes it. -/
theorem coUpd_cases (reqId : Int) (x : Request) :
    ((x.id : Int) == reqId) = false ∧ coUpd reqId x = x ∨
      ((x.id : Int) == reqId) = true ∧ (coUpd reqId x).status = ReqStatus.completed := by
  by_cases h : ((x.id : Int) == reqId) = true
  · exact Or.inr ⟨h, by unfold coUpd; simp [h]⟩
  · exact Or.inl ⟨by simpa using h, by unfold coUpd; simp [h]⟩

/-- Completing rows can only lower a hall's seat usage. -/
theorem seatsUsedL_coUpd_le (l : List Request) (reqId : Int) (rid : Nat) :
    seatsUsedL (l.map (coUpd reqId)) rid ≤ seatsUsedL l rid := by
  induction l with
  | nil => simp [seatsUsedL_nil]
  | cons x l ih =>
    rw [List.map_cons, seatsUsedL_cons, seatsUsedL_cons]
    rcases coUpd_cases reqId x with ⟨_, hx⟩ | ⟨_, hx⟩
    · rw [hx]; exact Nat.add_le_add_left ih _
    · have hcond : ((coUpd reqId x).assigned_room_id == some rid &&
          (coUpd reqId x).status == ReqStatus.in_room) = false := by
        simp [hx]
      rw [hcond]
      simp only [Bool.false_eq_true, if_false, Nat.zero_add]
      exact Nat.le_trans ih (Nat.le_add_left _ _)

/-- If every element of a list has an image distinct from the images of the
others, equal images force equal elements. -/
theorem nodup_map_inj {α β : Type} {f : α → β} {l : List α} (h : (l.map f).Nodup) :
    ∀ x ∈ l, ∀ y ∈ l, f x = f y → x = y := by
  induction l with
  | nil => intro x hx; cases hx
  | cons a l ih =>
    rw [List.map_cons, List.nodup_cons] at h
    intro x hx y hy hxy
    rcases List.mem_cons.mp hx with hx1 | hx1
    · rcases List.mem_cons.mp hy with hy1 | hy1
      · rw [hx1, hy1]
      · subst hx1
        exact absurd (by rw [hxy]; exact List.mem_map_of_mem f hy1) h.1
    · rcases List.mem_cons.mp hy with hy1 | hy1
      · subst hy1
        exact absurd (by rw [← hxy]; exact List.mem_map_of_mem f hx1) h.1
      · exact ih h.2 x hx1 y hy1 hxy

/-- Splitting a count along a second predicate. -/
theorem countP_split (l : List Request) (p q : Request → Bool) :
    l.countP p = l.countP (fun a => p a && q a) + l.countP (fun a => p a && !q a) := by
  induction l with
  | nil => rfl
  | cons a l ih =>
    by_cases hp : p a = true
    · by_cases hq : q a = true <;>
        simp [List.countP_cons, hp, hq, ih] <;> omega
    · simp [List.countP_cons, hp, ih]

/-- With distinct ids, the count of rows matching a fixed member's id is
decided by that member alone. -/
theorem countP_id_member (l : List Request) (q0 : Request)
    (h : (l.map Request.id).Nodup) (hq : q0 ∈ l) (p : Request → Bool) :
    l.countP (fun x => (x.id == q0.id) && p x) = if p q0 then 1 else 0 := by
  induction l with
  | nil => cases hq
  | cons a l ih =>
    rw [List.map_cons, List.nodup_cons] at h
    rcases List.mem_cons.mp hq with rfl | hq
    · have hzero : l.countP (fun x => (x.id == q0.id) && p x) = 0 := by
        rw [List.countP_eq_zero]
        intro x hx hcontra
        simp only [Bool.and_eq_true, beq_iff_eq] at hcontra
        apply h.1
        rw [← hcontra.1]
        exact List.mem_map_of_mem Request.id hx
      by_cases hp : p q0 = true <;> simp [List.countP_cons, hzero, hp]
    · have hne : (a.id == q0.id) = false := by
        rcases Bool.eq_false_or_eq_true (a.id == q0.id) with ht | hf
        · exfalso
          apply h.1
          rw [beq_iff_eq.mp ht]
          exact List.mem_map_of_mem Request.id hq
        · exact hf
      simp [List.countP_cons, hne, ih h.2 hq]

/-- Rows kept intact by a map keep their day sequence data. -/
theorem daySeqs_map_eq (l : List Request) (f : Request → Request) (dk : String)
    (hf : ∀ x, (f x).day_key = x.day_key ∧ (f x).seq = x.seq) :
    daySeqs (l.map f) dk = daySeqs l dk := by
  induction l with
  | nil => rfl
  | cons a l ih =>
    by_cases h : (a.day_key == dk) = true
    · have h2 : ((f a).day_key == dk) = true := by rw [(hf a).1]; exact h
      simp [daySeqs, List.filter_cons, h, h2, (hf a).2] at *
      exact ih
    · have h2 : ((f a).day_key == dk) = false := by
        rw [Bool.eq_false_iff] at *; rw [(hf a).1]; exact h
      simp [daySeqs, List.filter_cons, h, h2] at *
      exact ih

/-! ### Static room data and its preservation -/

theorem map_comp_eq {α β : Type} (l : List α) (f : α → α) (g : α → β)
    (h : ∀ x, g (f x) = g x) : (l.map f).map g = l.map g := by
  induction l with
  | nil => rfl
  | cons a l ih => simp [h, ih]

theorem privUpd_static (now : Int) (rid : Nat) (x : Room) :
    staticOf (privUpd now rid x) = staticOf x := by
  unfold privUpd; split <;> rfl

theorem roomFree_static (rid : Nat) (x : Room) : staticOf (roomFree rid x) = staticOf x := by
  unfold roomFree; split <;> rfl

theorem etaUpd_static (eta roomId : Int) (x : Room) : staticOf (etaUpd eta roomId x) = staticOf x := by
  unfold etaUpd; split <;> rfl

theorem etaUpd_status (eta roomId : Int) (x : Room) : (etaUpd eta roomId x).status = x.status := by
  unfold etaUpd; split <;> rfl

theorem staticOf_fields (r : Room) :
    (staticOf r).1 = r.id ∧ (staticOf r).2.1 = r.name ∧ (staticOf r).2.2.1 = r.capacity ∧
      (staticOf r).2.2.2 = r.kind := ⟨rfl, rfl, rfl, rfl⟩

theorem rooms_map_id_eq (st : St) (h : staticsOk st) :
    st.rooms.map Room.id = initRooms.map Room.id := by
  have key : ∀ l : List Room, l.map Room.id = (l.map staticOf).map Prod.fst := by
    intro l; rw [List.map_map]; rfl
  rw [key, h, ← key]

theorem rooms_id_nodup (st : St) (h : staticsOk st) : (st.rooms.map Room.id).Nodup := by
  rw [rooms_map_id_eq st h]
  decide

/-- Two rooms of the store with the same id are the same row. -/
theorem room_eq_of_id (st : St) (h : staticsOk st) {x y : Room}
    (hx : x ∈ st.rooms) (hy : y ∈ st.rooms) (hid : x.id = y.id) : x = y :=
  nodup_map_inj (rooms_id_nodup st h) x hx y hy hid

/-- A room of the store bearing one of the two hall names is a hall. -/
theorem hall_name_kind (st : St) (h : staticsOk st) {r : Room} (hr : r ∈ st.rooms)
    (hn : r.name = reinoName ∨ r.name = kamiName) : r.kind = .hall := by
  have hmem : staticOf r ∈ initRooms.map staticOf := by
    rw [← h]; exact List.mem_map_of_mem staticOf hr
  have key : ∀ s ∈ initRooms.map staticOf,
      (s.2.1 = reinoName ∨ s.2.1 = kamiName) → s.2.2.2 = RoomKind.hall := by decide
  exact key (staticOf r) hmem hn

theorem findRoomById_mem (st : St) (rid : Int) (r : Room)
    (h : findRoomById st rid = some r) : r ∈ st.rooms ∧ (r.id : Int) = rid := by
  refine ⟨List.mem_of_find?_eq_some h, ?_⟩
  have := List.find?_some h
  exact beq_iff_eq.mp this

theorem findRoomByName_mem (st : St) (n : String) (r : Room)
    (h : findRoomByName st n = some r) : r ∈ st.rooms ∧ r.name = n := by
  refine ⟨List.mem_of_find?_eq_some h, ?_⟩
  have := List.find?_some h
  exact beq_iff_eq.mp this

/-! ### Inversion of the successful transactions -/

theorem privAssign_ok_iff (st : St) (now : Int) (dk : String) (seq : Nat) (hc : Int)
    (roomId : Option Int) (out : St × Nat) :
    privAssign st now dk seq hc roomId = .ok out ↔
      ∃ rid r, roomId = some rid ∧ findRoomById st rid = some r ∧ r.kind = .priv ∧
        r.status = .available ∧ out = (stAfterPriv st now dk seq hc r.id, seq) := by
  unfold privAssign
  cases roomId with
  | none => simp
  | some rid =>
    cases hfind : findRoomById st rid with
    | none => simp [hfind]
    | some r =>
      by_cases hk : r.kind = RoomKind.priv
      · by_cases hs : r.status = RoomStatus.available
        · simp [hk, hs, hfind, eq_comm]
        · simp [hk, hs, hfind]
      · simp [hk, hfind]

theorem hallAssign_ok_iff (st : St) (dk : String) (seq : Nat) (target : Area)
    (hallName : String) (hc : Int) (out : St × Nat) :
    hallAssign st dk seq target hallName hc = .ok out ↔
      ∃ r need, findRoomByName st hallName = some r ∧ r.status ≠ .disabled ∧
        seats_needed_for_group hc = .ok need ∧
        hall_seats_used st r.id + need ≤ r.capacity ∧
        out = (stAfterHall st dk seq target hc r.id need, seq) := by
  unfold hallAssign
  cases hfind : findRoomByName st hallName with
  | none => simp [hfind]
  | some r =>
    by_cases hd : r.status = RoomStatus.disabled
    · simp [hd, hfind]
    · cases hseats : seats_needed_for_group hc with
      | error e => simp [hd, hfind, hseats]
      | ok need =>
        dsimp only
        rw [if_neg hd]
        by_cases hcap : r.capacity < hall_seats_used st r.id + need
        · rw [if_pos hcap]
          constructor
          · intro hcontra; cases hcontra
          · rintro ⟨r', need', hf', _, hs', hc', _⟩
            cases hf'
            cases hs'
            omega
        · rw [if_neg hcap]
          constructor
          · intro h
            injection h with h1
            exact ⟨r, need, rfl, hd, rfl, by omega, h1.symm⟩
          · rintro ⟨r', need', hf', _, hs', _, hout⟩
            cases hf'
            cases hs'
            rw [hout]

theorem quickAssignCore_ok (st : St) (now : Int) (dk : String) (target : Area) (hc : Int)
    (roomId : Option Int) (st2 : St) (s : Nat)
    (h : quickAssignCore st now dk target hc roomId = .ok (st2, s)) :
    ¬ hc ≤ 0 ∧ s = nextSeq st dk ∧
      ((∃ rid r, roomId = some rid ∧ findRoomById st rid = some r ∧ r.kind = .priv ∧
          r.status = .available ∧ target = .priv ∧ st2 = stAfterPriv st now dk s hc r.id) ∨
        (∃ hallName r need, (target = .reino_hall ∧ hallName = reinoName ∨
            target = .kami_hall ∧ hallName = kamiName) ∧
          findRoomByName st hallName = some r ∧ r.status ≠ .disabled ∧
          seats_needed_for_group hc = .ok need ∧
          hall_seats_used st r.id + need ≤ r.capacity ∧
          st2 = stAfterHall st dk s target hc r.id need)) := by
  unfold quickAssignCore at h
  by_cases hhc : hc ≤ 0
  · rw [if_pos hhc] at h; cases h
  · rw [if_neg hhc] at h
    cases target with
    | priv =>
      obtain ⟨rid, r, hrid, hfind, hk, hstat, hout⟩ := (privAssign_ok_iff _ _ _ _ _ _ _).mp h
      rw [Prod.mk.injEq] at hout
      obtain ⟨hst2, hseq⟩ := hout
      subst hseq
      exact ⟨hhc, rfl, Or.inl ⟨rid, r, hrid, hfind, hk, hstat, rfl, hst2⟩⟩
    | reino_hall =>
      obtain ⟨r, need, hfind, hd, hseats, hcap, hout⟩ := (hallAssign_ok_iff _ _ _ _ _ _ _).mp h
      rw [Prod.mk.injEq] at hout
      obtain ⟨hst2, hseq⟩ := hout
      subst hseq
      exact ⟨hhc, rfl, Or.inr ⟨reinoName, r, need, Or.inl ⟨rfl, rfl⟩, hfind, hd, hseats, hcap, hst2⟩⟩
    | kami_hall =>
      obtain ⟨r, need, hfind, hd, hseats, hcap, hout⟩ := (hallAssign_ok_iff _ _ _ _ _ _ _).mp h
      rw [Prod.mk.injEq] at hout
      obtain ⟨hst2, hseq⟩ := hout
      subst hseq
      exact ⟨hhc, rfl, Or.inr ⟨kamiName, r, need, Or.inr ⟨rfl, rfl⟩, hfind, hd, hseats, hcap, hst2⟩⟩

theorem checkoutCore_ok (st : St) (reqId : Int) (st2 : St)
    (h : checkoutCore st reqId = .ok st2) :
    ∃ q0 rid r0,
      st.requests.find? (fun q => (q.id : Int) == reqId && q.status == ReqStatus.in_room) = some q0 ∧
      q0.assigned_room_id = some rid ∧
      st.rooms.find? (fun r => r.id == rid) = some r0 ∧
      st2 = stAfterCheckout st reqId rid (r0.kind == RoomKind.priv) := by
  unfold checkoutCore at h
  split at h
  · cases h
  · rename_i q0 hq
    split at h
    · cases h
    · rename_i rid ha
      split at h
      · cases h
      · rename_i r0 hr
        injection h with h1
        exact ⟨q0, rid, r0, hq, ha, hr, h1.symm⟩

theorem roomsEtaCore_ok (st : St) (eta roomId : Int) (st2 : St)
    (h : roomsEtaCore st eta roomId = .ok st2) :
    ∃ r, findRoomById st roomId = some r ∧ r.kind = .priv ∧
      st2 = { st with rooms := st.rooms.map (etaUpd eta roomId) } := by
  unfold roomsEtaCore at h
  split at h
  · cases h
  · rename_i r hr
    split at h
    · cases h
    · rename_i hk
      split at h
      · cases h
      · injection h with h1
        exact ⟨r, hr, not_not.mp hk, h1.symm⟩

/-! ### Field preservation of the row updates -/

theorem privUpd_fields (now : Int) (rid : Nat) (x : Room) :
    (privUpd now rid x).id = x.id ∧ (privUpd now rid x).name = x.name ∧
      (privUpd now rid x).capacity = x.capacity ∧ (privUpd now rid x).kind = x.kind := by
  unfold privUpd; split <;> exact ⟨rfl, rfl, rfl, rfl⟩

theorem privUpd_of_eq (now : Int) (rid : Nat) (x : Room) (h : x.id = rid) :
    privUpd now rid x = { x with status := .occupied, eta_at := some (now + 105) } := by
  unfold privUpd; rw [if_pos (beq_iff_eq.mpr h)]

theorem privUpd_of_ne (now : Int) (rid : Nat) (x : Room) (h : ¬ x.id = rid) :
    privUpd now rid x = x := by
  unfold privUpd
  rw [if_neg]
  simp [h]

theorem roomFree_fields (rid : Nat) (x : Room) :
    (roomFree rid x).id = x.id ∧ (roomFree rid x).name = x.name ∧
      (roomFree rid x).capacity = x.capacity ∧ (roomFree rid x).kind = x.kind := by
  unfold roomFree; split <;> exact ⟨rfl, rfl, rfl, rfl⟩

theorem roomFree_of_eq (rid : Nat) (x : Room) (h : x.id = rid) :
    roomFree rid x = { x with status := .available, eta_at := none } := by
  unfold roomFree; rw [if_pos (beq_iff_eq.mpr h)]

theorem roomFree_of_ne (rid : Nat) (x : Room) (h : ¬ x.id = rid) : roomFree rid x = x := by
  unfold roomFree
  rw [if_neg]
  simp [h]

theorem etaUpd_fields (eta roomId : Int) (x : Room) :
    (etaUpd eta roomId x).id = x.id ∧ (etaUpd eta roomId x).name = x.name ∧
      (etaUpd eta roomId x).capacity = x.capacity ∧ (etaUpd eta roomId x).kind = x.kind ∧
      (etaUpd eta roomId x).status = x.status := by
  unfold etaUpd; split <;> exact ⟨rfl, rfl, rfl, rfl, rfl⟩

/-! ### Counting through a checkout update -/

theorem countP_coUpd (l : List Request) (reqId : Int) (q0id : Nat) (hid : (q0id : Int) = reqId)
    (p : Request → Bool) (hp : ∀ x, p x = true → x.status = ReqStatus.in_room) :
    l.countP (p ∘ coUpd reqId) =
      l.countP (fun x => (!(x.id == q0id)) && p x) := by
  apply List.countP_congr
  intro x _
  simp only [Function.comp_apply]
  by_cases hx : (x.id == q0id) = true
  · have hxi : ((x.id : Int) == reqId) = true := by
      rw [← hid, intNatBeq]; exact hx
    have hco : (coUpd reqId x).status = ReqStatus.completed := by
      simp [coUpd, hxi]
    constructor
    · intro hpc
      have := hp _ hpc
      rw [hco] at this
      cases this
    · intro hcontra
      rw [hx] at hcontra
      simp at hcontra
  · have hco : coUpd reqId x = x := by
      have hxi : ((x.id : Int) == reqId) = false := by
        rw [← hid, intNatBeq]
        simpa using hx
      simp [coUpd, hxi]
    rw [hco]
    simp only [Bool.not_eq_true] at hx
    rw [hx]
    simp

theorem countP_split_pred (l : List Request) (p q : Request → Bool) :
    l.countP p = l.countP (fun a => q a && p a) + l.countP (fun a => (!(q a)) && p a) := by
  induction l with
  | nil => rfl
  | cons a l ih =>
    by_cases hp : p a = true
    · by_cases hq : q a = true <;> simp [List.countP_cons, hp, hq, ih] <;> omega
    · simp [List.countP_cons, hp, ih]

/-- Completing the rows matching a present request's id removes exactly that
request's contribution from an in-room count. -/
theorem inRoomCountL_coUpd (l : List Request) (reqId : Int) (q0 : Request)
    (hnd : (l.map Request.id).Nodup) (hq0 : q0 ∈ l) (hid : (q0.id : Int) = reqId) (i : Nat) :
    inRoomCountL (l.map (coUpd reqId)) i +
      (if q0.assigned_room_id == some i && q0.status == ReqStatus.in_room then 1 else 0) =
      inRoomCountL l i := by
  unfold inRoomCountL
  rw [List.countP_map]
  have h1 : l.countP
      ((fun q => q.assigned_room_id == some i && q.status == ReqStatus.in_room) ∘ coUpd reqId) =
      l.countP (fun x => (!(x.id == q0.id)) &&
        (x.assigned_room_id == some i && x.status == ReqStatus.in_room)) := by
    apply countP_coUpd l reqId q0.id hid
    intro x hx
    rw [Bool.and_eq_true] at hx
    exact beq_iff_eq.mp hx.2
  rw [h1]
  have h2 := countP_split_pred l
    (fun x => x.assigned_room_id == some i && x.status == ReqStatus.in_room)
    (fun x => x.id == q0.id)
  have h3 := countP_id_member l q0 hnd hq0
    (fun x => x.assigned_room_id == some i && x.status == ReqStatus.in_room)
  rw [h2, h3]
  omega

/-! ### The inductive invariant holds initially -/

theorem inv_init : StInv initState :=
  ⟨rfl, by decide, by decide, by decide, by decide⟩

/-! ### Preservation of the invariant -/

theorem reqIds_fresh_nodup (l : List Request) (q : Request) (n : Nat)
    (hnd : (l.map Request.id).Nodup) (hlt : ∀ x ∈ l, x.id < n) (hq : q.id = n) :
    ((l ++ [q]).map Request.id).Nodup := by
  rw [List.map_append]
  refine List.nodup_append.mpr ⟨hnd, by simp, ?_⟩
  intro a ha hb
  simp only [List.map_cons, List.map_nil, List.mem_singleton] at hb
  obtain ⟨x, hx, hxa⟩ := List.mem_map.mp ha
  have hxlt := hlt x hx
  omega

theorem inv_stAfterPriv (st : St) (inv : StInv st) (now : Int) (dk : String) (sq : Nat)
    (hc : Int) (r : Room) (hrmem : r ∈ st.rooms) (hk : r.kind = .priv)
    (hstat : r.status = .available) : StInv (stAfterPriv st now dk sq hc r.id) := by
  have hcount0 : inRoomCountL st.requests r.id = 0 := ((inv.priv1 r hrmem hk).2.2).mp hstat
  constructor
  · unfold staticsOk
    show (st.rooms.map (privUpd now r.id)).map staticOf = _
    rw [map_comp_eq _ _ _ (privUpd_static now r.id)]
    exact inv.statics
  · show ((st.requests ++ [privReq st dk sq hc r.id]).map Request.id).Nodup
    exact reqIds_fresh_nodup _ _ _ inv.reqNodup inv.reqLt rfl
  · intro x hx
    show x.id < st.nextReqId + 1
    rcases List.mem_append.mp hx with hx1 | hx1
    · exact Nat.lt_succ_of_lt (inv.reqLt x hx1)
    · rw [List.mem_singleton] at hx1
      subst hx1
      exact Nat.lt_succ_self _
  · intro r2 hr2 hk2
    obtain ⟨x, hx, hfx⟩ := List.mem_map.mp hr2
    subst hfx
    obtain ⟨hid, hname, hcap2, hkind⟩ := privUpd_fields now r.id x
    rw [hkind] at hk2
    calc seatsUsedL (stAfterPriv st now dk sq hc r.id).requests (privUpd now r.id x).id
        = seatsUsedL (st.requests ++ [privReq st dk sq hc r.id]) x.id := by rw [hid]; rfl
      _ = seatsUsedL st.requests x.id := by
          rw [seatsUsedL_append]; simp [privReq]
      _ ≤ x.capacity := inv.cap x hx hk2
      _ = (privUpd now r.id x).capacity := hcap2.symm
  · intro r2 hr2 hk2
    obtain ⟨x, hx, hfx⟩ := List.mem_map.mp hr2
    subst hfx
    obtain ⟨hid, hname, hcap2, hkind⟩ := privUpd_fields now r.id x
    rw [hkind] at hk2
    rw [hid]
    have hcnt : inRoomCountL (stAfterPriv st now dk sq hc r.id).requests x.id =
        inRoomCountL st.requests x.id + (if x.id = r.id then 1 else 0) := by
      show inRoomCountL (st.requests ++ [privReq st dk sq hc r.id]) x.id = _
      rw [inRoomCountL_append]
      congr 1
      by_cases hxr : x.id = r.id
      · simp [privReq, hxr]
      · have hA : ¬ (r.id = x.id) := fun hcc => hxr hcc.symm
        simp [privReq, hA, hxr]
    rw [hcnt]
    by_cases hxr : x.id = r.id
    · rw [privUpd_of_eq now r.id x hxr]
      have hxeq : x = r := room_eq_of_id st inv.statics hx hrmem hxr
      have hc0 : inRoomCountL st.requests x.id = 0 := by rw [hxeq]; exact hcount0
      simp [hxr, hc0, hcount0]
    · rw [privUpd_of_ne now r.id x hxr]
      rw [if_neg hxr, Nat.add_zero]
      exact inv.priv1 x hx hk2

theorem inv_stAfterHall (st : St) (inv : StInv st) (dk : String) (sq : Nat) (target : Area)
    (hc : Int) (r : Room) (need : Nat) (hrmem : r ∈ st.rooms) (hkind : r.kind = .hall)
    (hcap : hall_seats_used st r.id + need ≤ r.capacity) :
    StInv (stAfterHall st dk sq target hc r.id need) := by
  constructor
  · exact inv.statics
  · show ((st.requests ++ [hallReq st dk sq target hc r.id need]).map Request.id).Nodup
    exact reqIds_fresh_nodup _ _ _ inv.reqNodup inv.reqLt rfl
  · intro x hx
    show x.id < st.nextReqId + 1
    rcases List.mem_append.mp hx with hx1 | hx1
    · exact Nat.lt_succ_of_lt (inv.reqLt x hx1)
    · rw [List.mem_singleton] at hx1
      subst hx1
      exact Nat.lt_succ_self _
  · intro r2 hr2 hk2
    have hr2m : r2 ∈ st.rooms := hr2
    show seatsUsedL (st.requests ++ [hallReq st dk sq target hc r.id need]) r2.id ≤ r2.capacity
    rw [seatsUsedL_append]
    by_cases hxr : r.id = r2.id
    · have hre : r2 = r := room_eq_of_id st inv.statics hr2m hrmem hxr.symm
      subst hre
      simp only [hallReq]
      simp
      exact hcap
    · have hA : ((hallReq st dk sq target hc r.id need).assigned_room_id == some r2.id &&
          (hallReq st dk sq target hc r.id need).status == ReqStatus.in_room) = false := by
        simp [hallReq, hxr]
      rw [hA]
      simp only [Bool.false_eq_true, if_false, Nat.add_zero]
      exact inv.cap r2 hr2m hk2
  · intro r2 hr2 hk2
    have hr2m : r2 ∈ st.rooms := hr2
    have hxr : ¬ (r.id = r2.id) := by
      intro hcc
      have hre : r2 = r := room_eq_of_id st inv.statics hr2m hrmem hcc.symm
      rw [hre, hkind] at hk2
      cases hk2
    have hcnt : inRoomCountL (stAfterHall st dk sq target hc r.id need).requests r2.id =
        inRoomCountL st.requests r2.id := by
      show inRoomCountL (st.requests ++ [hallReq st dk sq target hc r.id need]) r2.id = _
      rw [inRoomCountL_append]
      simp [hallReq, hxr]
    rw [hcnt]
    exact inv.priv1 r2 hr2m hk2

theorem stAfterCheckout_rooms (st : St) (reqId : Int) (rid : Nat) (b : Bool) :
    (stAfterCheckout st reqId rid b).rooms =
      if b then st.rooms.map (roomFree rid) else st.rooms := rfl

theorem stAfterCheckout_requests (st : St) (reqId : Int) (rid : Nat) (b : Bool) :
    (stAfterCheckout st reqId rid b).requests = st.requests.map (coUpd reqId) := rfl

theorem stAfterCheckout_nextReqId (st : St) (reqId : Int) (rid : Nat) (b : Bool) :
    (stAfterCheckout st reqId rid b).nextReqId = st.nextReqId := rfl

theorem inv_checkin {st : St} (inv : StInv st) {now : Int} {dk : String} {target : Area}
    {hc : Int} {roomId : Option Int} {st2 : St} {s : Nat}
    (h : quickAssignCore st now dk target hc roomId = .ok (st2, s)) : StInv st2 := by
  obtain ⟨-, -, hcase | hcase⟩ := quickAssignCore_ok st now dk target hc roomId st2 s h
  · obtain ⟨rid, r, -, hfind, hk, hstat, -, hst2⟩ := hcase
    obtain ⟨hrmem, -⟩ := findRoomById_mem st rid r hfind
    rw [hst2]
    exact inv_stAfterPriv st inv now dk s hc r hrmem hk hstat
  · obtain ⟨hallName, r, need, hnames, hfind, -, -, hcap, hst2⟩ := hcase
    obtain ⟨hrmem, hname⟩ := findRoomByName_mem st hallName r hfind
    have hkind : r.kind = .hall := by
      apply hall_name_kind st inv.statics hrmem
      rcases hnames with ⟨-, hn⟩ | ⟨-, hn⟩
      · exact Or.inl (hname.trans hn)
      · exact Or.inr (hname.trans hn)
    rw [hst2]
    exact inv_stAfterHall st inv dk s target hc r need hrmem hkind hcap

theorem inv_checkout {st : St} (inv : StInv st) {reqId : Int} {st2 : St}
    (h : checkoutCore st reqId = .ok st2) : StInv st2 := by
  obtain ⟨q0, rid, r0, hq, ha, hr, hst2⟩ := checkoutCore_ok st reqId st2 h
  have hq0mem : q0 ∈ st.requests := List.mem_of_find?_eq_some hq
  have hq0p := List.find?_some hq
  rw [Bool.and_eq_true] at hq0p
  have hq0id : (q0.id : Int) = reqId := beq_iff_eq.mp hq0p.1
  have hq0st : q0.status = ReqStatus.in_room := beq_iff_eq.mp hq0p.2
  have hr0mem : r0 ∈ st.rooms := List.mem_of_find?_eq_some hr
  have hr0id : r0.id = rid := by simpa using List.find?_some hr
  subst hst2
  have hcnt : ∀ i : Nat, inRoomCountL (st.requests.map (coUpd reqId)) i +
      (if rid = i then 1 else 0) = inRoomCountL st.requests i := by
    intro i
    have hbase := inRoomCountL_coUpd st.requests reqId q0 inv.reqNodup hq0mem hq0id i
    have h2 : (if q0.assigned_room_id == some i && q0.status == ReqStatus.in_room
        then 1 else 0) = (if rid = i then 1 else 0) := by
      by_cases hri : rid = i
      · simp [ha, hq0st, hri]
      · simp [ha, hq0st, hri]
    rw [h2] at hbase
    exact hbase
  constructor
  · unfold staticsOk
    rw [stAfterCheckout_rooms]
    by_cases hP : (r0.kind == RoomKind.priv) = true
    · rw [if_pos hP, map_comp_eq _ _ _ (roomFree_static rid)]
      exact inv.statics
    · rw [if_neg hP]
      exact inv.statics
  · rw [stAfterCheckout_requests, map_comp_eq _ _ _ (coUpd_id reqId)]
    exact inv.reqNodup
  · intro x hx
    rw [stAfterCheckout_requests] at hx
    obtain ⟨y, hy, hfy⟩ := List.mem_map.mp hx
    rw [stAfterCheckout_nextReqId, ← hfy, coUpd_id]
    exact inv.reqLt y hy
  · intro r2 hr2 hk2
    rw [stAfterCheckout_rooms] at hr2
    rw [stAfterCheckout_requests]
    by_cases hP : (r0.kind == RoomKind.priv) = true
    · rw [if_pos hP] at hr2
      obtain ⟨x, hx, hfx⟩ := List.mem_map.mp hr2
      subst hfx
      obtain ⟨hid, -, hcap2, hkind⟩ := roomFree_fields rid x
      rw [hkind] at hk2
      rw [hid, hcap2]
      exact (seatsUsedL_coUpd_le st.requests reqId x.id).trans (inv.cap x hx hk2)
    · rw [if_neg hP] at hr2
      exact (seatsUsedL_coUpd_le st.requests reqId r2.id).trans (inv.cap r2 hr2 hk2)
  · intro r2 hr2 hk2
    rw [stAfterCheckout_rooms] at hr2
    rw [stAfterCheckout_requests]
    by_cases hP : (r0.kind == RoomKind.priv) = true
    · rw [if_pos hP] at hr2
      obtain ⟨x, hx, hfx⟩ := List.mem_map.mp hr2
      subst hfx
      obtain ⟨hid, -, -, hkind⟩ := roomFree_fields rid x
      rw [hkind] at hk2
      rw [hid]
      by_cases hxr : x.id = rid
      · have hxeq : x = r0 := room_eq_of_id st inv.statics hx hr0mem (hxr.trans hr0id.symm)
        have hcx := hcnt x.id
        rw [if_pos hxr.symm] at hcx
        have hle := (inv.priv1 x hx hk2).1
        have hc2 : inRoomCountL (st.requests.map (coUpd reqId)) x.id = 0 := by omega
        rw [roomFree_of_eq rid x hxr, hc2]
        simp
      · have hcx := hcnt x.id
        rw [if_neg (fun hcc => hxr hcc.symm), Nat.add_zero] at hcx
        rw [roomFree_of_ne rid x hxr, hcx]
        exact inv.priv1 x hx hk2
    · rw [if_neg hP] at hr2
      have hxr : ¬ (rid = r2.id) := by
        intro hcc
        have hre : r2 = r0 := room_eq_of_id st inv.statics hr2 hr0mem (hcc ▸ hr0id).symm
        rw [hre] at hk2
        rw [hk2] at hP
        simp at hP
      have hcx := hcnt r2.id
      rw [if_neg hxr, Nat.add_zero] at hcx
      rw [hcx]
      exact inv.priv1 r2 hr2 hk2

theorem inv_setEta {st : St} (inv : StInv st) {eta roomId : Int} {st2 : St}
    (h : roomsEtaCore st eta roomId = .ok st2) : StInv st2 := by
  obtain ⟨r, -, -, hst2⟩ := roomsEtaCore_ok st eta roomId st2 h
  subst hst2
  constructor
  · unfold staticsOk
    show (st.rooms.map (etaUpd eta roomId)).map staticOf = _
    rw [map_comp_eq _ _ _ (etaUpd_static eta roomId)]
    exact inv.statics
  · exact inv.reqNodup
  · exact inv.reqLt
  · intro r2 hr2 hk2
    have hr2s : r2 ∈ st.rooms.map (etaUpd eta roomId) := hr2
    obtain ⟨x, hx, hfx⟩ := List.mem_map.mp hr2s
    subst hfx
    obtain ⟨hid, -, hcap2, hkind, -⟩ := etaUpd_fields eta roomId x
    rw [hkind] at hk2
    rw [hid, hcap2]
    exact inv.cap x hx hk2
  · intro r2 hr2 hk2
    have hr2s : r2 ∈ st.rooms.map (etaUpd eta roomId) := hr2
    obtain ⟨x, hx, hfx⟩ := List.mem_map.mp hr2s
    subst hfx
    obtain ⟨hid, -, -, hkind, hstat⟩ := etaUpd_fields eta roomId x
    rw [hkind] at hk2
    rw [hid, hstat]
    exact inv.priv1 x hx hk2

/-- Every reachable state satisfies the invariant. -/
theorem inv_reachable {st : St} (h : Reachable st) : StInv st := by
  induction h with
  | init => exact inv_init
  | step op hR ih =>
    rename_i stp
    cases op with
    | checkin now dk target hc roomId =>
      show StInv (commitQ stp (quickAssignCore stp now dk target hc roomId))
      cases hq : quickAssignCore stp now dk target hc roomId with
      | error e => exact ih
      | ok out =>
        obtain ⟨st2, s⟩ := out
        exact inv_checkin ih hq
    | checkout reqId =>
      show StInv (commit stp (checkoutCore stp reqId))
      cases hq : checkoutCore stp reqId with
      | error e => exact ih
      | ok st2 => exact inv_checkout ih hq
    | setEta eta roomId =>
      show StInv (commit stp (roomsEtaCore stp eta roomId))
      cases hq : roomsEtaCore stp eta roomId with
      | error e => exact ih
      | ok st2 => exact inv_setEta ih hq

/-! ### Day-scoped sequence numbers along a run -/

/-- A successful check-in returns `1 + max(existing seq for its day)` and
appends one request carrying that day key and number. -/
theorem quickAssign_shape (st : St) (now : Int) (dk : String) (target : Area) (hc : Int)
    (roomId : Option Int) (st2 : St) (s : Nat)
    (h : quickAssignCore st now dk target hc roomId = .ok (st2, s)) :
    s = dayMax st dk + 1 ∧
      ∃ q : Request, st2.requests = st.requests ++ [q] ∧ q.day_key = dk ∧ q.seq = s := by
  obtain ⟨-, hs, hcase | hcase⟩ := quickAssignCore_ok st now dk target hc roomId st2 s h
  · obtain ⟨rid, r, -, -, -, -, -, hst2⟩ := hcase
    refine ⟨hs, privReq st dk s hc r.id, ?_, rfl, rfl⟩
    rw [hst2]; rfl
  · obtain ⟨hallName, r, need, -, -, -, -, -, hst2⟩ := hcase
    refine ⟨hs, hallReq st dk s target hc r.id need, ?_, rfl, rfl⟩
    rw [hst2]; rfl

theorem dayMax_checkin_ok (st : St) (now : Int) (dk2 : String) (target : Area) (hc : Int)
    (roomId : Option Int) (st2 : St) (s : Nat)
    (h : quickAssignCore st now dk2 target hc roomId = .ok (st2, s)) (dk : String) :
    dayMax st2 dk = if dk2 = dk then dayMax st dk + 1 else dayMax st dk := by
  obtain ⟨hs, q, hreq, hqd, hqs⟩ := quickAssign_shape st now dk2 target hc roomId st2 s h
  unfold dayMax
  rw [hreq, daySeqs_append]
  by_cases hdk : dk2 = dk
  · rw [if_pos hdk]
    have : (q.day_key == dk) = true := by rw [hqd, hdk]; simp
    rw [this]
    simp only [if_true]
    rw [foldr_max_append, hqs, hs, hdk]
    show max (dayMax st dk) (dayMax st dk + 1) = dayMax st dk + 1
    omega
  · rw [if_neg hdk]
    have : (q.day_key == dk) = false := by
      rw [hqd]; exact beq_eq_false_iff_ne.mpr hdk
    rw [this]
    simp

theorem dayMax_checkout_ok (st : St) (reqId : Int) (st2 : St)
    (h : checkoutCore st reqId = .ok st2) (dk : String) : dayMax st2 dk = dayMax st dk := by
  obtain ⟨q0, rid, r0, -, -, -, hst2⟩ := checkoutCore_ok st reqId st2 h
  subst hst2
  unfold dayMax
  rw [stAfterCheckout_requests]
  rw [daySeqs_map_eq st.requests (coUpd reqId) dk
    (fun x => ⟨coUpd_day_key reqId x, coUpd_seq reqId x⟩)]

theorem dayMax_setEta_ok (st : St) (eta roomId : Int) (st2 : St)
    (h : roomsEtaCore st eta roomId = .ok st2) (dk : String) : dayMax st2 dk = dayMax st dk := by
  obtain ⟨r, -, -, hst2⟩ := roomsEtaCore_ok st eta roomId st2 h
  subst hst2
  rfl

/-- Along any run, the numbers issued for one day are consecutive starting
just above the day's current maximum. -/
theorem issued_range (dk : String) (ops : List Op) : ∀ st : St,
    issued dk st ops = List.range' (dayMax st dk + 1) (issued dk st ops).length := by
  induction ops with
  | nil => intro st; rfl
  | cons op ops ih =>
    intro st
    have hcons : issued dk st (op :: ops) =
        issuedStep dk st op ++ issued dk (applyOp st op) ops := rfl
    rw [hcons]
    cases op with
    | checkin now dk2 target hc roomId =>
      cases hq : quickAssignCore st now dk2 target hc roomId with
      | error e =>
        have hstep : issuedStep dk st (.checkin now dk2 target hc roomId) = [] := by
          unfold issuedStep
          dsimp only
          rw [hq]
        have happ : applyOp st (.checkin now dk2 target hc roomId) = st := by
          show commitQ st (quickAssignCore st now dk2 target hc roomId) = st
          rw [hq]
          rfl
        rw [hstep, happ, List.nil_append]
        exact ih st
      | ok out =>
        obtain ⟨st2, s⟩ := out
        have happ : applyOp st (.checkin now dk2 target hc roomId) = st2 := by
          show commitQ st (quickAssignCore st now dk2 target hc roomId) = st2
          rw [hq]
          rfl
        have hdm := dayMax_checkin_ok st now dk2 target hc roomId st2 s hq dk
        obtain ⟨hs, -⟩ := quickAssign_shape st now dk2 target hc roomId st2 s hq
        by_cases hdk : dk2 = dk
        · have hstep : issuedStep dk st (.checkin now dk2 target hc roomId) = [s] := by
            unfold issuedStep
            dsimp only
            rw [hq]
            simp [hdk]
          rw [hstep, happ]
          rw [if_pos hdk] at hdm
          have ihs := ih st2
          rw [hdm] at ihs
          rw [List.singleton_append, List.length_cons, List.range'_succ]
          rw [hs, hdk]
          exact congrArg (List.cons (dayMax st dk + 1)) ihs
        · have hstep : issuedStep dk st (.checkin now dk2 target hc roomId) = [] := by
            unfold issuedStep
            dsimp only
            rw [hq]
            simp [hdk]
          rw [hstep, happ, List.nil_append]
          rw [if_neg hdk] at hdm
          rw [← hdm]
          exact ih st2
    | checkout reqId =>
      have hstep : issuedStep dk st (.checkout reqId) = [] := rfl
      rw [hstep, List.nil_append]
      have hdm : dayMax (applyOp st (.checkout reqId)) dk = dayMax st dk := by
        show dayMax (commit st (checkoutCore st reqId)) dk = dayMax st dk
        cases hq : checkoutCore st reqId with
        | error e => rfl
        | ok st2 => exact dayMax_checkout_ok st reqId st2 hq dk
      rw [← hdm]
      exact ih (applyOp st (.checkout reqId))
    | setEta eta roomId =>
      have hstep : issuedStep dk st (.setEta eta roomId) = [] := rfl
      rw [hstep, List.nil_append]
      have hdm : dayMax (applyOp st (.setEta eta roomId)) dk = dayMax st dk := by
        show dayMax (commit st (roomsEtaCore st eta roomId)) dk = dayMax st dk
        cases hq : roomsEtaCore st eta roomId with
        | error e => rfl
        | ok st2 => exact dayMax_setEta_ok st eta roomId st2 hq dk
      rw [← hdm]
      exact ih (applyOp st (.setEta eta roomId))

/-! ### Branch characterizations used by several claims -/

theorem privAssign_success (st : St) (now : Int) (dk : String) (sq : Nat) (hc : Int)
    (rid : Int) (r : Room) (hfind : findRoomById st rid = some r) (hk : r.kind = .priv)
    (hstat : r.status = .available) :
    privAssign st now dk sq hc (some rid) = .ok (stAfterPriv st now dk sq hc r.id, sq) := by
  unfold privAssign
  dsimp only
  rw [hfind]
  dsimp only
  rw [if_neg (not_not_intro hk), if_neg (not_not_intro hstat)]

theorem quickAssign_priv_success (st : St) (now : Int) (dk : String) (hc : Int)
    (rid : Int) (r : Room) (h1 : 1 ≤ hc) (hfind : findRoomById st rid = some r)
    (hk : r.kind = .priv) (hstat : r.status = .available) :
    quickAssignCore st now dk .priv hc (some rid) =
      .ok (stAfterPriv st now dk (nextSeq st dk) hc r.id, nextSeq st dk) := by
  unfold quickAssignCore
  rw [if_neg (by omega)]
  exact privAssign_success st now dk (nextSeq st dk) hc rid r hfind hk hstat

theorem hallAssign_spec (st : St) (dk : String) (sq : Nat) (target : Area) (hallName : String)
    (hc : Int) (h1 : 1 ≤ hc) (h4 : hc ≤ 4) :
    (findRoomByName st hallName = none →
      hallAssign st dk sq target hallName hc = .error .roomNotFound) ∧
    ∀ r, findRoomByName st hallName = some r →
      (hallAssign st dk sq target hallName hc = .error .hallDisabled ↔
        r.status = .disabled) ∧
      ∃ need, seats_needed_for_group hc = .ok need ∧
        (r.status ≠ .disabled →
          (hallAssign st dk sq target hallName hc = .error .capacityExceeded ↔
            r.capacity < hall_seats_used st r.id + need) ∧
          (hall_seats_used st r.id + need ≤ r.capacity →
            hallAssign st dk sq target hallName hc =
              .ok (stAfterHall st dk sq target hc r.id need, sq))) := by
  have hneed : seats_needed_for_group hc = .ok (if hc ≤ 2 then 2 else 4) := by
    unfold seats_needed_for_group
    rw [if_neg (by omega)]
    by_cases h2 : hc ≤ 2
    · rw [if_pos h2, if_pos h2]
    · rw [if_neg h2, if_pos (by omega), if_neg h2]
  constructor
  · intro hnone
    unfold hallAssign
    rw [hnone]
  · intro r hsome
    unfold hallAssign
    rw [hsome]
    dsimp only
    by_cases hd : r.status = RoomStatus.disabled
    · rw [if_pos hd]
      exact ⟨by simp [hd], if hc ≤ 2 then 2 else 4, hneed, fun hcon => absurd hd hcon⟩
    · rw [if_neg hd, hneed]
      dsimp only
      refine ⟨?_, if hc ≤ 2 then 2 else 4, rfl, fun _ => ⟨?_, ?_⟩⟩
      · constructor
        · intro hcontra
          by_cases hcap : r.capacity <
              hall_seats_used st r.id + (if hc ≤ 2 then 2 else 4)
          · rw [if_pos hcap] at hcontra
            simp at hcontra
          · rw [if_neg hcap] at hcontra
            simp at hcontra
        · intro hcontra
          exact absurd hcontra hd
      · constructor
        · intro hcontra
          by_cases hcap : r.capacity <
              hall_seats_used st r.id + (if hc ≤ 2 then 2 else 4)
          · exact hcap
          · rw [if_neg hcap] at hcontra
            simp at hcontra
        · intro hcap
          rw [if_pos hcap]
      · intro hle
        rw [if_neg (by omega)]

/-! ### The claims -/

/-- C1: for every hall room and every state reachable from the seeded
initial store by any finite sequence of interleaved CheckIn and CheckOut
(and SetPrivateRoomEta) operations, the sum of `allocated_seats` over
`in_room` requests assigned to that hall is at most the hall's capacity. -/
theorem C1_hall_capacity_invariant (st : St) (h : Reachable st) :
    ∀ r ∈ st.rooms, r.kind = .hall → hall_seats_used st r.id ≤ r.capacity :=
  fun r hr hk => (inv_reachable h).cap r hr hk

theorem C1_hall_capacity_invariant_witness : hall_seats_used initState 9 ≤ 20 :=
  C1_hall_capacity_invariant initState Reachable.init reinoRoom (by decide) rfl

/-- C2: in every reachable state, each private room is referenced by at most
one `in_room` request; it is `occupied` iff exactly one such request
references it and `available` iff none does. -/
theorem C2_private_room_exclusivity (st : St) (h : Reachable st) :
    ∀ r ∈ st.rooms, r.kind = .priv →
      inRoomCount st r.id ≤ 1 ∧
        (r.status = .occupied ↔ inRoomCount st r.id = 1) ∧
        (r.status = .available ↔ inRoomCount st r.id = 0) :=
  fun r hr hk => (inv_reachable h).priv1 r hr hk

theorem C2_private_room_exclusivity_witness :
    inRoomCount initState room1.id ≤ 1 ∧
      (room1.status = .occupied ↔ inRoomCount initState room1.id = 1) ∧
      (room1.status = .available ↔ inRoomCount initState room1.id = 0) :=
  C2_private_room_exclusivity initState Reachable.init room1 (by decide) rfl

/-- C7: every successful CheckIn returns 1 + max(existing seq among that
day's requests) (1 when the day has none), and along any sequential run the
numbers issued for one day from the seeded store are 1, 2, 3, ... with no
gaps; failed CheckIns consume no number. -/
theorem C7_day_sequence_numbers :
    (∀ (st : St) (now : Int) (dk : String) (target : Area) (hc : Int)
      (roomId : Option Int) (st2 : St) (s : Nat),
      quickAssignCore st now dk target hc roomId = .ok (st2, s) → s = dayMax st dk + 1) ∧
    ∀ (dk : String) (ops : List Op),
      issued dk initState ops = List.range' 1 (issued dk initState ops).length := by
  constructor
  · intro st now dk target hc roomId st2 s h
    exact (quickAssign_shape st now dk target hc roomId st2 s h).1
  · intro dk ops
    have h0 : dayMax initState dk = 0 := rfl
    have h := issued_range dk ops initState
    rwa [h0] at h

theorem C7_day_sequence_numbers_witness :
    (1 = dayMax initState "d" + 1) ∧
      issued "d" initState demoOps = List.range' 1 (issued "d" initState demoOps).length :=
  ⟨C7_day_sequence_numbers.1 initState 0 "d" Area.priv 2 (some 1)
      (stAfterPriv initState 0 "d" 1 2 1) 1 rfl,
    C7_day_sequence_numbers.2 "d" demoOps⟩

/-- C10: a private-room CheckIn never validates the headcount against the
room's capacity: for every available private room and every headcount ≥ 1,
even one exceeding the capacity, the check-in succeeds. -/
theorem C10_private_ignores_capacity (st : St) (now : Int) (dk : String) (hc : Int)
    (rid : Int) (r : Room) (hfind : findRoomById st rid = some r) (hk : r.kind = .priv)
    (hstat : r.status = .available) (h1 : 1 ≤ hc) :
    quickAssignCore st now dk .priv hc (some rid) =
      .ok (stAfterPriv st now dk (nextSeq st dk) hc r.id, nextSeq st dk) :=
  quickAssign_priv_success st now dk hc rid r h1 hfind hk hstat

theorem C10_private_ignores_capacity_witness :
    (room1.capacity : Int) < 100 ∧
      quickAssignCore initState 0 "d" .priv 100 (some 1) =
        .ok (stAfterPriv initState 0 "d" 1 100 1, 1) :=
  ⟨by decide, C10_private_ignores_capacity initState 0 "d" 100 1 room1 rfl rfl rfl (by decide)⟩

/-- C3: a hall CheckIn resolves the hall by its canonical name (RoomNotFound
if absent), fails HallDisabled iff the hall is disabled, fails
CapacityExceeded iff used + need exceeds the capacity, and on success
inserts exactly one `in_room` request carrying the requested area, the
hall's id and `allocated_seats = need`, returning the day sequence number. -/
theorem C3_hall_checkin (st : St) (now : Int) (dk : String) (target : Area) (hc : Int)
    (roomId : Option Int) (htarget : target = .reino_hall ∨ target = .kami_hall)
    (h1 : 1 ≤ hc) (h4 : hc ≤ 4) :
    (findRoomByName st (hallNameOf target) = none →
      quickAssignCore st now dk target hc roomId = .error .roomNotFound) ∧
    ∀ r, findRoomByName st (hallNameOf target) = some r →
      (quickAssignCore st now dk target hc roomId = .error .hallDisabled ↔
        r.status = .disabled) ∧
      ∃ need, seats_needed_for_group hc = .ok need ∧
        (r.status ≠ .disabled →
          (quickAssignCore st now dk target hc roomId = .error .capacityExceeded ↔
            r.capacity < hall_seats_used st r.id + need) ∧
          (hall_seats_used st r.id + need ≤ r.capacity →
            quickAssignCore st now dk target hc roomId =
              .ok (stAfterHall st dk (nextSeq st dk) target hc r.id need,
                nextSeq st dk))) := by
  have hq : quickAssignCore st now dk target hc roomId =
      hallAssign st dk (nextSeq st dk) target (hallNameOf target) hc := by
    rcases htarget with rfl | rfl
    · unfold quickAssignCore
      rw [if_neg (by omega)]
      rfl
    · unfold quickAssignCore
      rw [if_neg (by omega)]
      rfl
  rw [hq]
  exact hallAssign_spec st dk (nextSeq st dk) target (hallNameOf target) hc h1 h4

theorem C3_hall_checkin_witness :
    quickAssignCore initState 0 "d" Area.reino_hall 2 none =
      .ok (stAfterHall initState "d" 1 Area.reino_hall 2 9 2, 1) := by
  have h := (C3_hall_checkin initState 0 "d" Area.reino_hall 2 none (Or.inl rfl)
    (by decide) (by decide)).2 reinoRoom (by decide)
  obtain ⟨-, need, hneed, himp⟩ := h
  have h2 : (2 : Nat) = need := by
    have h' : (Except.ok 2 : Except Err Nat) = Except.ok need := hneed
    injection h'
  subst h2
  obtain ⟨-, hsucc⟩ := himp (by decide)
  exact hsucc (by decide)

/-- C4: a private CheckIn fails MissingRoom without a roomId, RoomNotFound
when the id resolves to no room, WrongRoomKind for a non-private room,
RoomNotAvailable when the room is not available (cleaning and disabled
included); on success it inserts one `in_room` request with null
`allocated_seats`, marks the room occupied with eta = now + 105 minutes,
and returns the day sequence number. -/
theorem C4_private_checkin (st : St) (now : Int) (dk : String) (hc : Int) (h1 : 1 ≤ hc) :
    (quickAssignCore st now dk .priv hc none = .error .missingRoom) ∧
    (∀ rid, findRoomById st rid = none →
      quickAssignCore st now dk .priv hc (some rid) = .error .roomNotFound) ∧
    (∀ rid r, findRoomById st rid = some r → r.kind ≠ .priv →
      quickAssignCore st now dk .priv hc (some rid) = .error .wrongRoomKind) ∧
    (∀ rid r, findRoomById st rid = some r → r.kind = .priv → r.status ≠ .available →
      quickAssignCore st now dk .priv hc (some rid) = .error .roomNotAvailable) ∧
    (∀ rid r, findRoomById st rid = some r → r.kind = .priv → r.status = .available →
      quickAssignCore st now dk .priv hc (some rid) =
        .ok (stAfterPriv st now dk (nextSeq st dk) hc r.id, nextSeq st dk)) := by
  have hno : ¬ hc ≤ 0 := by omega
  refine ⟨?_, ?_, ?_, ?_, ?_⟩
  · unfold quickAssignCore
    rw [if_neg hno]
    rfl
  · intro rid hfind
    unfold quickAssignCore
    rw [if_neg hno]
    show privAssign st now dk (nextSeq st dk) hc (some rid) = _
    unfold privAssign
    dsimp only
    rw [hfind]
  · intro rid r hfind hk
    unfold quickAssignCore
    rw [if_neg hno]
    show privAssign st now dk (nextSeq st dk) hc (some rid) = _
    unfold privAssign
    dsimp only
    rw [hfind]
    dsimp only
    rw [if_pos hk]
  · intro rid r hfind hk hstat
    unfold quickAssignCore
    rw [if_neg hno]
    show privAssign st now dk (nextSeq st dk) hc (some rid) = _
    unfold privAssign
    dsimp only
    rw [hfind]
    dsimp only
    rw [if_neg (not_not_intro hk), if_pos hstat]
  · intro rid r hfind hk hstat
    exact quickAssign_priv_success st now dk hc rid r h1 hfind hk hstat

theorem C4_private_checkin_witness :
    quickAssignCore initState 0 "d" .priv 3 (some 1) =
      .ok (stAfterPriv initState 0 "d" 1 3 1, 1) :=
  (C4_private_checkin initState 0 "d" 3 (by decide)).2.2.2.2 1 room1 rfl rfl rfl

/-- C5: seat-size policy — 2 units for 1–2 people, 4 units for 3–4 people,
InvalidGroupSize for headcount ≤ 0, GroupTooLarge for headcount > 4 — and
GroupTooLarge is enforced only on hall targets: a private check-in never
fails GroupTooLarge and accepts any headcount ≥ 1 on an available room. -/
theorem C5_seat_size_policy :
    (∀ hc : Int, 1 ≤ hc → hc ≤ 2 → seats_needed_for_group hc = .ok 2) ∧
    (∀ hc : Int, 3 ≤ hc → hc ≤ 4 → seats_needed_for_group hc = .ok 4) ∧
    (∀ hc : Int, hc ≤ 0 → seats_needed_for_group hc = .error .invalidGroupSize) ∧
    (∀ hc : Int, 4 < hc → seats_needed_for_group hc = .error .groupTooLarge) ∧
    (∀ (st : St) (now : Int) (dk : String) (hc : Int) (roomId : Option Int),
      quickAssignCore st now dk .priv hc roomId ≠ .error .groupTooLarge) ∧
    (∀ (st : St) (now : Int) (dk : String) (hc : Int) (rid : Int) (r : Room),
      1 ≤ hc → findRoomById st rid = some r → r.kind = .priv → r.status = .available →
      quickAssignCore st now dk .priv hc (some rid) =
        .ok (stAfterPriv st now dk (nextSeq st dk) hc r.id, nextSeq st dk)) := by
  refine ⟨?_, ?_, ?_, ?_, ?_, ?_⟩
  · intro hc ha hb
    unfold seats_needed_for_group
    rw [if_neg (by omega), if_pos hb]
  · intro hc ha hb
    unfold seats_needed_for_group
    rw [if_neg (by omega), if_neg (by omega), if_pos hb]
  · intro hc ha
    unfold seats_needed_for_group
    rw [if_pos ha]
  · intro hc ha
    unfold seats_needed_for_group
    rw [if_neg (by omega), if_neg (by omega), if_neg (by omega)]
  · intro st now dk hc roomId hcontra
    unfold quickAssignCore at hcontra
    by_cases hhc : hc ≤ 0
    · rw [if_pos hhc] at hcontra
      simp at hcontra
    · rw [if_neg hhc] at hcontra
      have hcontra2 : privAssign st now dk (nextSeq st dk) hc roomId =
          .error .groupTooLarge := hcontra
      unfold privAssign at hcontra2
      cases roomId with
      | none => simp at hcontra2
      | some rid =>
        dsimp only at hcontra2
        cases hfind : findRoomById st rid with
        | none =>
          rw [hfind] at hcontra2
          simp at hcontra2
        | some r =>
          rw [hfind] at hcontra2
          dsimp only at hcontra2
          by_cases hk : r.kind = RoomKind.priv
          · rw [if_neg (not_not_intro hk)] at hcontra2
            by_cases hs : r.status = RoomStatus.available
            · rw [if_neg (not_not_intro hs)] at hcontra2
              simp at hcontra2
            · rw [if_pos hs] at hcontra2
              simp at hcontra2
          · rw [if_pos hk] at hcontra2
            simp at hcontra2
  · intro st now dk hc rid r h1 hfind hk hstat
    exact quickAssign_priv_success st now dk hc rid r h1 hfind hk hstat

theorem C5_seat_size_policy_witness :
    seats_needed_for_group 2 = .ok 2 ∧ seats_needed_for_group 3 = .ok 4 ∧
      seats_needed_for_group 0 = .error .invalidGroupSize ∧
      seats_needed_for_group 5 = .error .groupTooLarge ∧
      quickAssignCore initState 0 "d" .priv 5 (some 1) =
        .ok (stAfterPriv initState 0 "d" 1 5 1, 1) :=
  ⟨C5_seat_size_policy.1 2 (by decide) (by decide),
    C5_seat_size_policy.2.1 3 (by decide) (by decide),
    C5_seat_size_policy.2.2.1 0 (by decide),
    C5_seat_size_policy.2.2.2.1 5 (by decide),
    C5_seat_size_policy.2.2.2.2.2 initState 0 "d" 5 1 room1 (by decide) rfl rfl rfl⟩

/-- C6: CheckOut completes the active request found by id (clearing its
`allocated_seats` to null) and resets the room to available with a cleared
eta exactly when the room's kind is private; when no `in_room` request with
that id exists — in particular on a second CheckOut of the same id — it
fails RequestNotFound and the store is unchanged (an error commits
nothing). -/
theorem C6_checkout (st : St) (reqId : Int) :
    ((∀ q ∈ st.requests, ¬((q.id : Int) = reqId ∧ q.status = ReqStatus.in_room)) →
      checkoutCore st reqId = .error .requestNotFound) ∧
    (∀ q0 rid r0,
      st.requests.find? (fun q => (q.id : Int) == reqId && q.status == ReqStatus.in_room)
        = some q0 →
      q0.assigned_room_id = some rid →
      st.rooms.find? (fun r => r.id == rid) = some r0 →
      checkoutCore st reqId =
        .ok (stAfterCheckout st reqId rid (r0.kind == RoomKind.priv))) ∧
    (∀ st2, checkoutCore st reqId = .ok st2 →
      checkoutCore st2 reqId = .error .requestNotFound) := by
  refine ⟨?_, ?_, ?_⟩
  · intro hnone
    have hfind : st.requests.find?
        (fun q => (q.id : Int) == reqId && q.status == ReqStatus.in_room) = none := by
      rw [List.find?_eq_none]
      intro x hx hpx
      simp only [Bool.and_eq_true, beq_iff_eq] at hpx
      exact hnone x hx hpx
    unfold checkoutCore
    rw [hfind]
  · intro q0 rid r0 hq ha hr
    unfold checkoutCore
    rw [hq]
    dsimp only
    rw [ha]
    dsimp only
    rw [hr]
    rfl
  · intro st2 hok
    obtain ⟨q0, rid, r0, hq, ha, hr, hst2⟩ := checkoutCore_ok st reqId st2 hok
    have hfind2 : st2.requests.find?
        (fun q => (q.id : Int) == reqId && q.status == ReqStatus.in_room) = none := by
      rw [hst2, stAfterCheckout_requests, List.find?_eq_none]
      intro x hx hpx
      obtain ⟨y, hy, hfy⟩ := List.mem_map.mp hx
      rcases coUpd_cases reqId y with ⟨hne, hco⟩ | ⟨heq, hco⟩
      · rw [← hfy, hco] at hpx
        simp [hne] at hpx
      · rw [← hfy] at hpx
        simp only [Bool.and_eq_true] at hpx
        have hst := beq_iff_eq.mp hpx.2
        rw [hco] at hst
        simp at hst
    unfold checkoutCore
    rw [hfind2]

theorem C6_checkout_witness :
    checkoutCore demoPrivSt 1 = .ok demoCoSt ∧
      checkoutCore demoCoSt 1 = .error .requestNotFound ∧
      checkoutCore initState 5 = .error .requestNotFound := by
  have h1 : checkoutCore demoPrivSt 1 = .ok demoCoSt :=
    (C6_checkout demoPrivSt 1).2.1 (privReq initState "d" 1 3 1) 1
      { room1 with status := .occupied, eta_at := some 105 }
      (by decide) (by decide) (by decide)
  exact ⟨h1, (C6_checkout demoPrivSt 1).2.2 demoCoSt h1,
    (C6_checkout initState 5).1 (by decide)⟩

/-- C8: any CheckIn, CheckOut or SetPrivateRoomEta call that returns an
error leaves the store exactly as it was before the call — no request row
is inserted or modified and no room row is modified. -/
theorem C8_error_rollback (st : St) (now : Int) (dk : String) (p : QuickPayload)
    (pc : Option PyVal) (pe : Option PyVal) (hh : String) :
    (∀ st2 e, api_quick_assign st now dk p = (st2, .error e) → st2 = st) ∧
    (∀ st2 e, api_checkout st pc = (st2, .error e) → st2 = st) ∧
    (∀ st2 e, api_rooms_eta st now pe hh = (st2, .error e) → st2 = st) := by
  refine ⟨?_, ?_, ?_⟩
  · intro st2 e h
    unfold api_quick_assign at h
    dsimp only at h
    repeat' split at h
    all_goals first
      | (injection h with h1 h2; exact h1.symm)
      | (injection h with h1 h2; cases h2)
  · intro st2 e h
    unfold api_checkout at h
    repeat' split at h
    all_goals first
      | (injection h with h1 h2; exact h1.symm)
      | (injection h with h1 h2; cases h2)
  · intro st2 e h
    unfold api_rooms_eta at h
    repeat' split at h
    all_goals first
      | (injection h with h1 h2; exact h1.symm)
      | (injection h with h1 h2; cases h2)

theorem C8_error_rollback_witness :
    (api_quick_assign initState 0 "d" badTargetPayload).1 = initState ∧
      (api_checkout initState (some (.int 0))).1 = initState ∧
      (api_rooms_eta initState 0 (some (.int 1)) "x").1 = initState :=
  ⟨(C8_error_rollback initState 0 "d" badTargetPayload (some (.int 0))
      (some (.int 1)) "x").1 (api_quick_assign initState 0 "d" badTargetPayload).1
      .badParameters rfl,
    (C8_error_rollback initState 0 "d" badTargetPayload (some (.int 0))
      (some (.int 1)) "x").2.1 (api_checkout initState (some (.int 0))).1
      .badParameters rfl,
    (C8_error_rollback initState 0 "d" badTargetPayload (some (.int 0))
      (some (.int 1)) "x").2.2 (api_rooms_eta initState 0 (some (.int 1)) "x").1
      .badParameters rfl⟩

/-- C9 counterexample: a malformed client input — a non-integer headcount —
is surfaced as the generic internal error, not as the BadParameters
validation error, because `int(payload.get("headcount", 1))` runs outside
the endpoint's exception handling. -/
theorem C9_counterexample :
    (api_quick_assign initState 0 "d" badHeadcountPayload).2 = .error .internal ∧
      Err.internal ≠ Err.badParameters := ⟨rfl, by decide⟩

/-- C9 (amended): inputs malformed in ways the handlers check explicitly
are rejected with client-facing validation errors — an unknown targetArea,
a zero or missing requestId and a wrong-length or non-numeric `HH:MM` give
BadParameters, a non-positive headcount gives InvalidGroupSize — but
inputs that fail Python `int(...)` coercion (a non-integer headcount in
CheckIn, a non-integer requestId in CheckOut) and out-of-range hour/minute
values in SetPrivateRoomEta raise unhandled conversion errors surfaced as
the generic internal error. -/
theorem C9_error_taxonomy (st : St) (now : Int) (dk : String) :
    (api_quick_assign st now dk badHeadcountPayload).2 = .error .internal ∧
    (api_checkout st (some (.str "two"))).2 = .error .internal ∧
    (api_quick_assign st now dk badTargetPayload).2 = .error .badParameters ∧
    (api_quick_assign st now dk zeroHeadcountPayload).2 = .error .invalidGroupSize ∧
    (api_checkout st (some (.int 0))).2 = .error .badParameters ∧
    (api_rooms_eta st now (some (.int 1)) "99:99").2 = .error .internal ∧
    (api_rooms_eta st now (some (.int 1)) "9:30").2 = .error .badParameters ∧
    (api_rooms_eta st now (some (.int 1)) "ab:cd").2 = .error .badParameters :=
  ⟨rfl, rfl, rfl, rfl, rfl, rfl, rfl, rfl⟩
